import Mathlib

/-!
Verification of the web3wall meta-contract (`src/main.rs`, `src/data.rs`).

The development shallowly embeds the contract's three entry points
(`on_execute`, `on_mint`, `on_clone`) together with the helper predicates
(`is_profane`, `is_nft_storage_link`) and executable models of the external
capabilities the code consumes: the serde_json parser, the hex decoder of the
`hex` crate, and the ethabi decoder specialised to a `(string, string, string)`
tuple.  An `on_execute` call that reaches the `.unwrap()` of an absent `text`
field terminates the process; this unrecoverable fault is modelled by
returning `none` (every graceful outcome is `some` envelope).
-/

namespace W3Wall

/-- Modelled from the spec: identity of the contract instance (`types.rs` is
not part of the sources; the field is the one `main.rs` reads). -/
structure MetaContract where
  public_key : String
  deriving Repr, DecidableEq

/-- Modelled from the spec: a pre-existing metadata record, opaque to the
decision logic (never read by `main.rs`). -/
structure Metadata where
  content : String
  deriving Repr, DecidableEq

/-- Modelled from the spec: the incoming transaction; `main.rs` reads its raw
payload `data`, the submitter's `public_key`, and the `version` tag. -/
structure Transaction where
  public_key : String
  data : String
  version : String
  deriving Repr, DecidableEq

/-- Modelled from the spec: one derived output record (the fields set by
`main.rs`: owner key, alias, content, looseness flag, version). -/
structure FinalMetadata where
  public_key : String
  «alias» : String
  content : String
  loose : Int
  version : String
  deriving Repr, DecidableEq

/-- Modelled from the spec: the uniform result envelope of every entry
point. -/
structure MetaContractResult where
  result : Bool
  metadatas : List FinalMetadata
  error_string : String
  deriving Repr, DecidableEq

/-- `OpenSeaAttributes` from `src/data.rs`: a trait/value pair. -/
structure OpenSeaAttributes where
  trait_type : String
  value : String
  deriving Repr, DecidableEq

/-- `is_nft_storage_link` from `src/main.rs`: a link is accepted when it is
empty or starts with the nft.storage gateway URL. -/
def is_nft_storage_link (link : String) : Bool :=
  link == "" || String.isPrefixOf "https://nftstorage.link/ipfs/" link

/-- Rust's `str::contains` for string patterns: substring containment. -/
def strContains (text word : String) : Bool :=
  decide (word.toList <:+: text.toList)

/-- `is_profane` from `src/main.rs`: the blocklist holds only empty entries,
and only non-empty entries are ever tested for containment. -/
def is_profane (text : String) : Bool :=
  ["", ""].any fun word => if word ≠ "" then strContains text word else false

/-- `on_clone` from `src/main.rs`: always acknowledges. -/
def on_clone : Bool := true

/-- A serde_json value (external capability consumed by `on_execute`).
Numbers are modelled by integers; the decision logic only ever asks whether a
value is a string. -/
inductive Json where
  | null : Json
  | bool : Bool → Json
  | num : Int → Json
  | str : String → Json
  | arr : List Json → Json
  | obj : List (String × Json) → Json
  deriving Repr

/-- Key lookup in an object's association list (first match). -/
def lookupKey : List (String × Json) → String → Option Json
  | [], _ => none
  | (k, v) :: rest, key => if k == key then some v else lookupKey rest key

/-- serde_json's `Value::is_object`. -/
def Json.isObject : Json → Bool
  | .obj _ => true
  | _ => false

/-- serde_json's indexing `value[key]`: member of an object, `Null` when the
key is absent or the value is not an object. -/
def Json.index (j : Json) (key : String) : Json :=
  match j with
  | .obj kvs => (lookupKey kvs key).getD Json.null
  | _ => Json.null

/-- serde_json's `Value::as_str`. -/
def Json.as_str : Json → Option String
  | .str s => some s
  | _ => none

/-- JSON whitespace. -/
def isWs (c : Char) : Bool := c == ' ' || c == '\t' || c == '\n' || c == '\r'

/-- Drop leading JSON whitespace. -/
def skipWs : List Char → List Char
  | [] => []
  | c :: rest => if isWs c then skipWs rest else c :: rest

/-- Resolve a single-character JSON escape (the backspace, form-feed,
newline, carriage-return and tab escapes are given by code point). -/
def unescape : Char → Option Char
  | '"' => some '"'
  | '\\' => some '\\'
  | '/' => some '/'
  | 'b' => some (Char.ofNat 8)
  | 'f' => some (Char.ofNat 12)
  | 'n' => some (Char.ofNat 10)
  | 'r' => some (Char.ofNat 13)
  | 't' => some (Char.ofNat 9)
  | _ => none

/-- Parse the body of a JSON string after the opening quote (accumulator is
reversed).  Raw control characters are rejected, as serde_json does; the
model omits the `u` hex escape. -/
def parseStringChars : List Char → List Char → Option (String × List Char)
  | [], _ => none
  | '"' :: rest, acc => some (String.mk acc.reverse, rest)
  | '\\' :: c :: rest, acc =>
    match unescape c with
    | some e => parseStringChars rest (e :: acc)
    | none => none
  | ['\\'], _ => none
  | c :: rest, acc => if c.toNat < 32 then none else parseStringChars rest (c :: acc)

/-- Read decimal digits into an accumulator. -/
def digitsToNat : List Char → Nat → Nat
  | [], acc => acc
  | c :: rest, acc => digitsToNat rest (acc * 10 + (c.toNat - 48))

/-- Split a leading run of decimal digits from the input. -/
def takeDigits : List Char → List Char × List Char
  | [] => ([], [])
  | c :: rest =>
    if c.isDigit then
      let p := takeDigits rest
      (c :: p.1, p.2)
    else ([], c :: rest)

/-- Parse a JSON number (model: optionally signed integers). -/
def parseNum : List Char → Option (Json × List Char)
  | '-' :: rest =>
    match takeDigits rest with
    | ([], _) => none
    | (ds, r) => some (Json.num (-(digitsToNat ds 0 : Int)), r)
  | cs =>
    match takeDigits cs with
    | ([], _) => none
    | (ds, r) => some (Json.num (digitsToNat ds 0), r)

/-- Insert a member into an object under construction; a duplicate key
overwrites the earlier value, as serde_json's map insertion does. -/
def insertKey : List (String × Json) → String → Json → List (String × Json)
  | [], k, v => [(k, v)]
  | (k0, v0) :: rest, k, v =>
    if k0 == k then (k0, v) :: rest else (k0, v0) :: insertKey rest k v

mutual

/-- Fuelled recursive-descent parser for one JSON value. -/
def parseValue : Nat → List Char → Option (Json × List Char)
  | 0, _ => none
  | fuel + 1, cs =>
    match skipWs cs with
    | 'n' :: 'u' :: 'l' :: 'l' :: rest => some (Json.null, rest)
    | 't' :: 'r' :: 'u' :: 'e' :: rest => some (Json.bool true, rest)
    | 'f' :: 'a' :: 'l' :: 's' :: 'e' :: rest => some (Json.bool false, rest)
    | '"' :: rest =>
      match parseStringChars rest [] with
      | some (s, r) => some (Json.str s, r)
      | none => none
    | '{' :: rest =>
      match skipWs rest with
      | '}' :: r => some (Json.obj [], r)
      | cs2 => parseMembers fuel cs2 []
    | '[' :: rest =>
      match skipWs rest with
      | ']' :: r => some (Json.arr [], r)
      | cs2 => parseElems fuel cs2 []
    | cs2 => parseNum cs2

/-- Parse the members of a non-empty JSON object after the opening brace. -/
def parseMembers : Nat → List Char → List (String × Json) → Option (Json × List Char)
  | 0, _, _ => none
  | fuel + 1, cs, acc =>
    match skipWs cs with
    | '"' :: rest =>
      match parseStringChars rest [] with
      | some (k, rest2) =>
        match skipWs rest2 with
        | ':' :: rest3 =>
          match parseValue fuel rest3 with
          | some (v, rest4) =>
            match skipWs rest4 with
            | ',' :: rest5 => parseMembers fuel rest5 (insertKey acc k v)
            | '}' :: rest5 => some (Json.obj (insertKey acc k v), rest5)
            | _ => none
          | none => none
        | _ => none
      | none => none
    | _ => none

/-- Parse the elements of a non-empty JSON array after the opening bracket. -/
def parseElems : Nat → List Char → List Json → Option (Json × List Char)
  | 0, _, _ => none
  | fuel + 1, cs, acc =>
    match parseValue fuel cs with
    | some (v, rest) =>
      match skipWs rest with
      | ',' :: rest2 => parseElems fuel rest2 (acc ++ [v])
      | ']' :: rest2 => some (Json.arr (acc ++ [v]), rest2)
      | _ => none
    | none => none

end

/-- serde_json's `from_str`: parse a complete JSON document, allowing
trailing whitespace only.  The fuel bound exceeds the recursion depth of any
parseable input. -/
def Json.parse (s : String) : Option Json :=
  match parseValue (s.length + 1) s.toList with
  | some (v, rest) => if (skipWs rest).isEmpty then some v else none
  | none => none

/-- `on_execute` from `src/main.rs`.  `none` models the unrecoverable fault
raised by the `.unwrap()` of the `text` field; every graceful return is
`some` envelope. -/
def on_execute (contract : MetaContract) (metadatas : List Metadata)
    (transaction : Transaction) : Option MetaContractResult :=
  match Json.parse transaction.data with
  | none =>
    some { result := false, metadatas := [], error_string := "Data is not a valid format." }
  | some json_data =>
    if json_data.isObject then
      let image : Option String := (json_data.index "image").as_str
      let text : Option String := (json_data.index "text").as_str
      if image.isNone && text.isNone then
        some { result := false, metadatas := [], error_string := "No data inputted" }
      else if (match image with | some img => !is_nft_storage_link img | none => false) then
        some { result := false, metadatas := [], error_string := "Invalid image link is been used" }
      else if (match text with | some t => is_profane t | none => false) then
        some { result := false, metadatas := [], error_string := "Profanity found in the text." }
      else
        match (json_data.index "text").as_str with
        | none => none
        | some t =>
          if is_profane t then
            some { result := false, metadatas := [], error_string := "Profanity found in the text." }
          else
            some { result := true,
                   metadatas := [{ public_key := transaction.public_key, «alias» := "",
                                   content := transaction.data, loose := 1,
                                   version := transaction.version }],
                   error_string := "" }
    else
      some { result := false, metadatas := [],
             error_string := "Data does not follow the required JSON schema." }

/-- Value of one hex digit, both cases accepted, as in the hex crate. -/
def hexVal (c : Char) : Option Nat :=
  if '0' ≤ c ∧ c ≤ '9' then some (c.toNat - 48)
  else if 'a' ≤ c ∧ c ≤ 'f' then some (c.toNat - 87)
  else if 'A' ≤ c ∧ c ≤ 'F' then some (c.toNat - 55)
  else none

/-- Decode consecutive pairs of hex digits into bytes. -/
def hexPairs : List Char → Except String (List Nat)
  | [] => .ok []
  | [_] => .error "Odd number of digits"
  | c1 :: c2 :: rest =>
    match hexVal c1, hexVal c2 with
    | some hi, some lo =>
      match hexPairs rest with
      | .ok bs => .ok ((16 * hi + lo) :: bs)
      | .error e => .error e
    | _, _ => .error "Invalid character in hex input"

/-- The hex crate's `decode` (external capability): an odd-length input is
rejected outright, otherwise digit pairs become bytes. -/
def hexDecode (s : String) : Except String (List Nat) :=
  if s.length % 2 ≠ 0 then .error "Odd number of digits" else hexPairs s.toList

/-- A UTF-8 continuation byte. -/
def isCont (b : Nat) : Bool := decide (0x80 ≤ b ∧ b ≤ 0xBF)

/-- Decode a UTF-8 byte sequence into characters, rejecting ill-formed
sequences (overlong forms, surrogates, out-of-range points), as Rust's
`String::from_utf8` does. -/
def utf8Aux : List Nat → Option (List Char)
  | [] => some []
  | b1 :: rest =>
    if b1 < 0x80 then
      (utf8Aux rest).map (fun cs => Char.ofNat b1 :: cs)
    else if 0xC0 ≤ b1 ∧ b1 ≤ 0xDF then
      match rest with
      | b2 :: rest2 =>
        let cp := (b1 - 0xC0) * 64 + (b2 - 0x80)
        if isCont b2 ∧ 0x80 ≤ cp then
          (utf8Aux rest2).map (fun cs => Char.ofNat cp :: cs)
        else none
      | _ => none
    else if 0xE0 ≤ b1 ∧ b1 ≤ 0xEF then
      match rest with
      | b2 :: b3 :: rest3 =>
        let cp := (b1 - 0xE0) * 4096 + (b2 - 0x80) * 64 + (b3 - 0x80)
        if isCont b2 ∧ isCont b3 ∧ 0x800 ≤ cp ∧ ¬(0xD800 ≤ cp ∧ cp ≤ 0xDFFF) then
          (utf8Aux rest3).map (fun cs => Char.ofNat cp :: cs)
        else none
      | _ => none
    else if 0xF0 ≤ b1 ∧ b1 ≤ 0xF4 then
      match rest with
      | b2 :: b3 :: b4 :: rest4 =>
        let cp := (b1 - 0xF0) * 262144 + (b2 - 0x80) * 4096 + (b3 - 0x80) * 64 + (b4 - 0x80)
        if isCont b2 ∧ isCont b3 ∧ isCont b4 ∧ 0x10000 ≤ cp ∧ cp ≤ 0x10FFFF then
          (utf8Aux rest4).map (fun cs => Char.ofNat cp :: cs)
        else none
      | _ => none
    else none

/-- Rust's `String::from_utf8` on a byte list. -/
def utf8Decode (bs : List Nat) : Option String :=
  (utf8Aux bs).map String.mk

/-- The ethabi `Token`, restricted to the string tokens this contract ever
decodes. -/
inductive Token where
  | string : String → Token
  deriving Repr, DecidableEq

/-- ethabi's `Display` for a token: a string token prints its contents
verbatim, which is what `result[i].clone().to_string()` yields. -/
def Token.to_string : Token → String
  | .string s => s

/-- Big-endian value of a byte list. -/
def bytesBE : List Nat → Nat
  | [] => 0
  | b :: rest => b * 256 ^ rest.length + bytesBE rest

/-- ethabi's `peek_32_bytes`: the 32-byte word at `offset`. -/
def peekWord (data : List Nat) (offset : Nat) : Except String (List Nat) :=
  if offset + 32 ≤ data.length then .ok ((data.drop offset).take 32) else .error "Invalid data"

/-- ethabi's `as_usize`: a word fits a usize when its first 28 bytes
vanish; the value is the big-endian tail. -/
def asUsize (w : List Nat) : Except String Nat :=
  if (w.take 28).all (· == 0) then .ok (bytesBE (w.drop 28)) else .error "Invalid data"

/-- ethabi's `take_bytes`. -/
def takeBytes (data : List Nat) (offset len : Nat) : Except String (List Nat) :=
  if offset + len ≤ data.length then .ok ((data.drop offset).take len) else .error "Invalid data"

/-- ethabi decoding of one `string` parameter whose head word sits at
`offset`: follow the head offset to the tail, read the length word, take
that many bytes and require valid UTF-8. -/
def decodeStringParam (data : List Nat) (offset : Nat) : Except String Token := do
  let w ← peekWord data offset
  let dynOff ← asUsize w
  let lw ← peekWord data dynOff
  let len ← asUsize lw
  let bytes ← takeBytes data (dynOff + 32) len
  match utf8Decode bytes with
  | some s => .ok (Token.string s)
  | none => .error "invalid utf-8 sequence"

/-- ethabi's `decode` at parameter types `[String, String, String]`
(external capability): the three head words sit at offsets 0, 32, 64; empty
input is rejected. -/
def ethabiDecode3 (data : List Nat) : Except String (List Token) :=
  if data.isEmpty then
    .error "please ensure the contract and method you are calling exist"
  else do
    let t1 ← decodeStringParam data 0
    let t2 ← decodeStringParam data 32
    let t3 ← decodeStringParam data 64
    .ok [t1, t2, t3]

/-- Escape one character for a JSON string literal (quote and backslash; the
serialized values of this contract contain neither). -/
def jsonEscapeChar (c : Char) : String :=
  if c == '"' then "\\\""
  else if c == '\\' then "\\\\"
  else String.singleton c

/-- Quote a string as serde_json serializes it. -/
def jsonQuote (s : String) : String :=
  "\"" ++ String.join (s.toList.map jsonEscapeChar) ++ "\""

/-- serde_json's serialization of one `OpenSeaAttributes` value (derived
`Serialize`, fields in declaration order). -/
def serializeAttribute (a : OpenSeaAttributes) : String :=
  "\x7b\"trait_type\":" ++ jsonQuote a.trait_type ++ ",\"value\":" ++ jsonQuote a.value ++ "\x7d"

/-- serde_json's `to_string` of an attribute vector. -/
def serializeAttributes (l : List OpenSeaAttributes) : String :=
  "[" ++ String.intercalate "," (l.map serializeAttribute) ++ "]"

/-- The attribute vector built in `on_mint`. -/
def mintAttr : List OpenSeaAttributes :=
  [{ trait_type := "origin", value := "w3wall" }, { trait_type := "type", value := "topic" }]

/-- The data-extraction phase of `on_mint` (`src/main.rs` lines 128-171):
the mutable `error`/`finals` pair of the Rust loop body is rendered as an
`Except` over the list of records accumulated so far. -/
def mintStep (contract : MetaContract) (data : String) :
    Except String (List FinalMetadata) :=
  if data.length > 0 then
    match hexDecode data with
    | .error e => .error ("Invalid data structure: " ++ e)
    | .ok decoded =>
      match ethabiDecode3 decoded with
      | .error e => .error ("Invalid data structure: " ++ e)
      | .ok result =>
        if result.length == 3 then
          match result with
          | [t1, t2, t3] =>
            .ok [ { public_key := contract.public_key, «alias» := "name",
                    content := t1.to_string, loose := 1, version := "" },
                  { public_key := contract.public_key, «alias» := "image",
                    content := t2.to_string, loose := 1, version := "" },
                  { public_key := contract.public_key, «alias» := "body",
                    content := t3.to_string, loose := 1, version := "" } ]
          | _ => .ok []
        else .ok []
  else .ok []

/-- `on_mint` from `src/main.rs`: run the extraction phase, short-circuit a
decode failure to the error envelope before any record is appended,
otherwise append the constant `description` and `attributes` records and
succeed. -/
def on_mint (contract : MetaContract) (data_key : String) (token_id : String)
    (data : String) : MetaContractResult :=
  match mintStep contract data with
  | .error e => { result := false, metadatas := [], error_string := e }
  | .ok finals =>
    { result := true,
      metadatas := finals ++
        [ { public_key := contract.public_key, «alias» := "description",
            content := "A subject in w3wall decentralize forum", loose := 1, version := "" },
          { public_key := contract.public_key, «alias» := "attributes",
            content := serializeAttributes mintAttr, loose := 1, version := "" } ],
      error_string := "" }

/-- ABI encoding of the string 3-tuple ("Alice", "ipfs://x", "hello"): three
head words holding the tail offsets 0x60, 0xa0, 0xe0, each tail a length
word followed by the padded bytes. -/
def aliceHex : String :=
  "000000000000000000000000000000000000000000000000000000000000006000000000000000000000000000000000000000000000000000000000000000a000000000000000000000000000000000000000000000000000000000000000e00000000000000000000000000000000000000000000000000000000000000005416c6963650000000000000000000000000000000000000000000000000000000000000000000000000000000000000000000000000000000000000000000008697066733a2f2f78000000000000000000000000000000000000000000000000000000000000000000000000000000000000000000000000000000000000000568656c6c6f000000000000000000000000000000000000000000000000000000"

/-- The byte sequence `aliceHex` decodes to. -/
def aliceBytes : List Nat :=
  match hexDecode aliceHex with
  | Except.ok bs => bs
  | Except.error _ => []

/-! ## Helper lemmas -/

theorem is_profane_eq_false (t : String) : is_profane t = false := rfl

theorem on_execute_shape (c : MetaContract) (ms : List Metadata) (tx : Transaction)
    (r : MetaContractResult) (h : on_execute c ms tx = some r) :
    (r = { result := true,
           metadatas := [{ public_key := tx.public_key, «alias» := "", content := tx.data,
                           loose := 1, version := tx.version }],
           error_string := "" }) ∨
    (r.result = false ∧ r.metadatas = [] ∧
      (r.error_string = "Data is not a valid format." ∨
       r.error_string = "Data does not follow the required JSON schema." ∨
       r.error_string = "No data inputted" ∨
       r.error_string = "Invalid image link is been used")) := by
  unfold on_execute at h
  split at h
  · right; injection h with h'; subst h'; exact ⟨rfl, rfl, Or.inl rfl⟩
  · rename_i x0 jd hpeq
    split at h
    · simp only [] at h
      split at h
      · right; injection h with h'; subst h'; exact ⟨rfl, rfl, Or.inr (Or.inr (Or.inl rfl))⟩
      · split at h
        · right; injection h with h'; subst h'
          exact ⟨rfl, rfl, Or.inr (Or.inr (Or.inr rfl))⟩
        · split at h
          · rename_i hg
            rcases heqt : (jd.index "text").as_str with _ | t
            · rw [heqt] at hg; simp at hg
            · rw [heqt] at hg; simp [is_profane_eq_false] at hg
          · split at h
            · exact Option.noConfusion h
            · rename_i t heqt
              split at h
              · rename_i hg
                rw [is_profane_eq_false] at hg
                exact Bool.noConfusion hg
              · left; injection h with h'; exact h'.symm
    · right; injection h with h'; subst h'; exact ⟨rfl, rfl, Or.inr (Or.inl rfl)⟩

theorem mintStep_error_shape (c : MetaContract) (d e : String)
    (h : mintStep c d = Except.error e) :
    ∃ e0, e = "Invalid data structure: " ++ e0 := by
  unfold mintStep at h
  split at h
  · split at h
    · injection h with h'; exact ⟨_, h'.symm⟩
    · split at h
      · injection h with h'; exact ⟨_, h'.symm⟩
      · split at h
        · split at h
          · exact Except.noConfusion h
          · exact Except.noConfusion h
        · exact Except.noConfusion h
  · exact Except.noConfusion h

theorem invalid_data_ne_empty (e : String) : "Invalid data structure: " ++ e ≠ "" := by
  intro hc
  have hlen := congrArg String.length hc
  rw [String.length_append] at hlen
  have h24 : ("Invalid data structure: " : String).length = 24 := rfl
  have h0 : ("" : String).length = 0 := rfl
  omega

theorem on_mint_shape (c : MetaContract) (dk tid d : String) :
    (∃ finals, on_mint c dk tid d =
        { result := true, metadatas := finals, error_string := "" }) ∨
    (∃ e, on_mint c dk tid d =
        { result := false, metadatas := [],
          error_string := "Invalid data structure: " ++ e }) := by
  unfold on_mint
  rcases hms : mintStep c d with e | finals
  · obtain ⟨e0, he⟩ := mintStep_error_shape c d e hms
    right
    exact ⟨e0, by rw [he]⟩
  · left
    exact ⟨_, rfl⟩

theorem strContains_append (a e : String) : strContains (a ++ e) e = true := by
  have hdata : (a ++ e).toList = a.toList ++ e.toList := by
    simp [String.toList, String.data_append]
  have h : e.toList <:+: (a ++ e).toList := by
    rw [hdata]
    exact (List.suffix_append a.toList e.toList).isInfix
  simp [strContains, decide_eq_true_eq]
  exact h

/-! ## Claims -/

/-- C1: a transaction whose payload parses as a JSON object carrying a valid
`image` string (empty or with the trusted storage URL as a leading piece)
but no `text` member drives `on_execute` into the unconditional dereference
of the absent `text` field: the call ends in an unrecoverable fault (`none`)
instead of a `MetaContractResult` envelope. -/
theorem execute_missing_text_faults (c : MetaContract) (ms : List Metadata)
    (tx : Transaction) (kvs : List (String × Json)) (img : String)
    (hparse : Json.parse tx.data = some (Json.obj kvs))
    (himg : lookupKey kvs "image" = some (Json.str img))
    (hvalid : img = "" ∨ String.isPrefixOf "https://nftstorage.link/ipfs/" img = true)
    (htext : lookupKey kvs "text" = none) :
    on_execute c ms tx = none := by
  have hilink : is_nft_storage_link img = true := by
    rcases hvalid with hv | hv
    · subst hv; rfl
    · simp [is_nft_storage_link, hv]
  have hi : ((Json.obj kvs).index "image").as_str = some img := by
    simp [Json.index, himg, Json.as_str]
  have ht : ((Json.obj kvs).index "text").as_str = none := by
    simp [Json.index, htext, Json.as_str]
  unfold on_execute
  rw [hparse]
  simp [Json.isObject, hi, ht, hilink]

theorem execute_missing_text_faults_witness :
    on_execute { public_key := "ck" } []
      { public_key := "pk", data := "\x7b\"image\":\"\"\x7d", version := "v1" } = none :=
  execute_missing_text_faults { public_key := "ck" } []
    { public_key := "pk", data := "\x7b\"image\":\"\"\x7d", version := "v1" }
    [("image", Json.str "")] "" (by rfl) (by rfl) (Or.inl rfl) (by rfl)

/-- C2: every envelope any entry point returns is internally consistent: a
failure carries no records and a non-empty error string, a success carries
the empty error string.  (`on_clone` returns the bare boolean `true` and
never produces an envelope, so it satisfies the invariant vacuously.) -/
theorem envelope_invariant (c : MetaContract) (ms : List Metadata) (tx : Transaction)
    (mc : MetaContract) (dk tid d : String) :
    (∀ r, on_execute c ms tx = some r →
       ((r.result = false → r.metadatas = [] ∧ r.error_string ≠ "") ∧
        (r.result = true → r.error_string = ""))) ∧
    ((on_mint mc dk tid d).result = false →
       (on_mint mc dk tid d).metadatas = [] ∧ (on_mint mc dk tid d).error_string ≠ "") ∧
    ((on_mint mc dk tid d).result = true → (on_mint mc dk tid d).error_string = "") ∧
    on_clone = true := by
  refine ⟨?_, ?_, ?_, rfl⟩
  · intro r h
    rcases on_execute_shape c ms tx r h with hs | ⟨hf, hm, he⟩
    · subst hs
      exact ⟨fun hcontra => Bool.noConfusion hcontra, fun _ => rfl⟩
    · constructor
      · intro _
        refine ⟨hm, ?_⟩
        rcases he with he | he | he | he <;> rw [he] <;> decide
      · intro htrue; rw [hf] at htrue; exact Bool.noConfusion htrue
  · rcases on_mint_shape mc dk tid d with ⟨finals, hfin⟩ | ⟨e, herr⟩
    · rw [hfin]; intro hcontra; exact Bool.noConfusion hcontra
    · rw [herr]; intro _; exact ⟨rfl, invalid_data_ne_empty e⟩
  · rcases on_mint_shape mc dk tid d with ⟨finals, hfin⟩ | ⟨e, herr⟩
    · rw [hfin]; intro _; rfl
    · rw [herr]; intro hcontra; exact Bool.noConfusion hcontra

theorem envelope_invariant_witness :
    ({ result := false, metadatas := [],
       error_string := "Data is not a valid format." } : MetaContractResult).metadatas = [] ∧
    ({ result := false, metadatas := [],
       error_string := "Data is not a valid format." } : MetaContractResult).error_string ≠ "" :=
  ((envelope_invariant { public_key := "ck" } []
      { public_key := "pk", data := "oops", version := "v" }
      { public_key := "ck" } "" "" "").1
    { result := false, metadatas := [], error_string := "Data is not a valid format." }
    (by rfl)).1 rfl

/-- C3: a mint whose non-empty data hex-decodes and ABI-decodes to a
3-tuple of strings succeeds with the records `name`, `image`, `body`
carrying the decoded strings (owner the contract identity, looseness 1,
empty version), followed by the `description` and `attributes` records. -/
theorem mint_three_tuple (c : MetaContract) (dk tid data : String)
    (bytes : List Nat) (s1 s2 s3 : String)
    (hlen : data.length > 0)
    (hhex : hexDecode data = Except.ok bytes)
    (habi : ethabiDecode3 bytes =
      Except.ok [Token.string s1, Token.string s2, Token.string s3]) :
    on_mint c dk tid data =
      { result := true,
        metadatas :=
          [ { public_key := c.public_key, «alias» := "name", content := s1,
              loose := 1, version := "" },
            { public_key := c.public_key, «alias» := "image", content := s2,
              loose := 1, version := "" },
            { public_key := c.public_key, «alias» := "body", content := s3,
              loose := 1, version := "" },
            { public_key := c.public_key, «alias» := "description",
              content := "A subject in w3wall decentralize forum", loose := 1, version := "" },
            { public_key := c.public_key, «alias» := "attributes",
              content := serializeAttributes mintAttr, loose := 1, version := "" } ],
        error_string := "" } := by
  simp only [on_mint, mintStep, if_pos hlen, hhex, habi]
  rfl

set_option maxRecDepth 100000 in
theorem mint_three_tuple_witness :
    on_mint { public_key := "ck" } "" "" aliceHex =
      { result := true,
        metadatas :=
          [ { public_key := "ck", «alias» := "name", content := "Alice",
              loose := 1, version := "" },
            { public_key := "ck", «alias» := "image", content := "ipfs://x",
              loose := 1, version := "" },
            { public_key := "ck", «alias» := "body", content := "hello",
              loose := 1, version := "" },
            { public_key := "ck", «alias» := "description",
              content := "A subject in w3wall decentralize forum", loose := 1, version := "" },
            { public_key := "ck", «alias» := "attributes",
              content := serializeAttributes mintAttr, loose := 1, version := "" } ],
        error_string := "" } :=
  mint_three_tuple { public_key := "ck" } "" "" aliceHex aliceBytes
    "Alice" "ipfs://x" "hello" (by decide) (by rfl) (by rfl)

/-- C4: whenever `on_execute` returns a success envelope, that envelope
holds exactly one record, whose content is the original payload text
byte-for-byte, with empty alias, the submitter's public key as owner,
looseness 1 and the transaction's version tag. -/
theorem execute_success_echoes (c : MetaContract) (ms : List Metadata)
    (tx : Transaction) (r : MetaContractResult)
    (h : on_execute c ms tx = some r) (hres : r.result = true) :
    r.metadatas = [{ public_key := tx.public_key, «alias» := "", content := tx.data,
                     loose := 1, version := tx.version }] := by
  rcases on_execute_shape c ms tx r h with hs | ⟨hf, _, _⟩
  · rw [hs]
  · rw [hf] at hres; exact Bool.noConfusion hres

theorem execute_success_echoes_witness :
    ({ result := true,
       metadatas := [{ public_key := "pk", «alias» := "", content := "\x7b\"text\":\"hi\"\x7d",
                       loose := 1, version := "v1" }],
       error_string := "" } : MetaContractResult).metadatas =
      [{ public_key := "pk", «alias» := "", content := "\x7b\"text\":\"hi\"\x7d",
         loose := 1, version := "v1" }] :=
  execute_success_echoes { public_key := "ck" } []
    { public_key := "pk", data := "\x7b\"text\":\"hi\"\x7d", version := "v1" }
    { result := true,
      metadatas := [{ public_key := "pk", «alias» := "", content := "\x7b\"text\":\"hi\"\x7d",
                      loose := 1, version := "v1" }],
      error_string := "" }
    (by rfl) rfl

/-- C5: an object payload whose `image` member is a string that is neither
empty nor led by the trusted storage URL is rejected with the link error
and an empty record list, whatever the `text` member holds. -/
theorem execute_invalid_image (c : MetaContract) (ms : List Metadata)
    (tx : Transaction) (j : Json) (img : String)
    (hparse : Json.parse tx.data = some j)
    (hobj : j.isObject = true)
    (himg : (j.index "image").as_str = some img)
    (hne : img ≠ "")
    (hnopre : String.isPrefixOf "https://nftstorage.link/ipfs/" img = false) :
    on_execute c ms tx =
      some { result := false, metadatas := [],
             error_string := "Invalid image link is been used" } := by
  have hlink : is_nft_storage_link img = false := by
    simp [is_nft_storage_link, hne, hnopre]
  unfold on_execute
  rw [hparse]
  simp [hobj, himg, hlink]

theorem execute_invalid_image_witness :
    on_execute { public_key := "ck" } []
      { public_key := "pk", data := "\x7b\"image\":\"http://evil\",\"text\":\"t\"\x7d",
        version := "v1" } =
      some { result := false, metadatas := [],
             error_string := "Invalid image link is been used" } :=
  execute_invalid_image { public_key := "ck" } []
    { public_key := "pk", data := "\x7b\"image\":\"http://evil\",\"text\":\"t\"\x7d",
      version := "v1" }
    (Json.obj [("image", Json.str "http://evil"), ("text", Json.str "t")]) "http://evil"
    (by rfl) (by rfl) (by rfl) (by decide) (by rfl)

/-- C6: a mint with empty data succeeds with exactly the `description`
record (its constant content) followed by the `attributes` record carrying
the exact JSON serialization of the two fixed attribute pairs. -/
theorem mint_empty_data (c : MetaContract) (dk tid : String) :
    on_mint c dk tid "" =
      { result := true,
        metadatas :=
          [ { public_key := c.public_key, «alias» := "description",
              content := "A subject in w3wall decentralize forum", loose := 1, version := "" },
            { public_key := c.public_key, «alias» := "attributes",
              content := "[\x7b\"trait_type\":\"origin\",\"value\":\"w3wall\"\x7d,\x7b\"trait_type\":\"type\",\"value\":\"topic\"\x7d]",
              loose := 1, version := "" } ],
        error_string := "" } := rfl

/-- C7: a mint with non-empty data that fails hex decoding or ABI decoding
returns a failure envelope with zero records whose error string embeds (as
a substring) the underlying decode failure description. -/
theorem mint_decode_failure (c : MetaContract) (dk tid data e : String)
    (hlen : data.length > 0)
    (hfail : hexDecode data = Except.error e ∨
      ∃ bs, hexDecode data = Except.ok bs ∧ ethabiDecode3 bs = Except.error e) :
    on_mint c dk tid data =
      { result := false, metadatas := [],
        error_string := "Invalid data structure: " ++ e } ∧
    strContains ("Invalid data structure: " ++ e) e = true := by
  constructor
  · rcases hfail with hhex | ⟨bs, hok, habi⟩
    · simp only [on_mint, mintStep, if_pos hlen, hhex]
    · simp only [on_mint, mintStep, if_pos hlen, hok, habi]
  · exact strContains_append "Invalid data structure: " e

theorem mint_decode_failure_witness :
    on_mint { public_key := "ck" } "" "" "zz" =
      { result := false, metadatas := [],
        error_string := "Invalid data structure: " ++ "Invalid character in hex input" } ∧
    strContains ("Invalid data structure: " ++ "Invalid character in hex input")
      "Invalid character in hex input" = true :=
  mint_decode_failure { public_key := "ck" } "" "" "zz" "Invalid character in hex input"
    (by decide) (Or.inl (by rfl))

/-- C8: the link validator accepts a string exactly when it is empty or the
fixed trusted storage URL leads it, by case-sensitive prefix comparison and
nothing else. -/
theorem link_validator_iff (link : String) :
    is_nft_storage_link link = true ↔
      link = "" ∨ String.isPrefixOf "https://nftstorage.link/ipfs/" link = true := by
  simp [is_nft_storage_link]

/-- C9: the moderation gate never flags any text (the configured blocklist
holds no non-empty entry), so `on_execute` never returns the
profanity-rejection envelope. -/
theorem moderation_gate_never_flags :
    (∀ t, is_profane t = false) ∧
    ∀ (c : MetaContract) (ms : List Metadata) (tx : Transaction) (r : MetaContractResult),
      on_execute c ms tx = some r → r.error_string ≠ "Profanity found in the text." := by
  refine ⟨is_profane_eq_false, ?_⟩
  intro c ms tx r h
  rcases on_execute_shape c ms tx r h with hs | ⟨_, _, he⟩
  · subst hs
    show ("" : String) ≠ "Profanity found in the text."
    decide
  · rcases he with he | he | he | he <;> rw [he] <;> decide

theorem moderation_gate_never_flags_witness :
    ({ result := false, metadatas := [],
       error_string := "Data is not a valid format." } : MetaContractResult).error_string ≠
      "Profanity found in the text." :=
  moderation_gate_never_flags.2 { public_key := "ck" } []
    { public_key := "pk", data := "oops", version := "v" }
    { result := false, metadatas := [], error_string := "Data is not a valid format." }
    (by rfl)

/-- C10: an object payload whose `image` and `text` members are both
present but both non-strings is treated as if both were absent: rejected
with `No data inputted`. -/
theorem execute_nonstring_fields (c : MetaContract) (ms : List Metadata)
    (tx : Transaction) (kvs : List (String × Json)) (vi vt : Json)
    (hparse : Json.parse tx.data = some (Json.obj kvs))
    (hi : lookupKey kvs "image" = some vi) (hvi : vi.as_str = none)
    (ht : lookupKey kvs "text" = some vt) (hvt : vt.as_str = none) :
    on_execute c ms tx =
      some { result := false, metadatas := [], error_string := "No data inputted" } := by
  have hi' : ((Json.obj kvs).index "image").as_str = none := by
    simp [Json.index, hi, hvi]
  have ht' : ((Json.obj kvs).index "text").as_str = none := by
    simp [Json.index, ht, hvt]
  unfold on_execute
  rw [hparse]
  simp [Json.isObject, hi', ht']

theorem execute_nonstring_fields_witness :
    on_execute { public_key := "ck" } []
      { public_key := "pk", data := "\x7b\"image\":1,\"text\":[]\x7d", version := "v1" } =
      some { result := false, metadatas := [], error_string := "No data inputted" } :=
  execute_nonstring_fields { public_key := "ck" } []
    { public_key := "pk", data := "\x7b\"image\":1,\"text\":[]\x7d", version := "v1" }
    [("image", Json.num 1), ("text", Json.arr [])] (Json.num 1) (Json.arr [])
    (by rfl) (by rfl) rfl (by rfl) rfl

end W3Wall
